import Mathlib

/-!
Verification of the range-aware video-streaming endpoint found in
`src/Node.js/video-stream/server/src/websocket.js` (the fastify
`GET /video/:filename` handler, the `parseRange` helper of the study notes in
the same file) and of the concurrent-stream limiter snippet of
`src/Node.js/video-streaming-endpoint.md` (`activeStreams`).

The JavaScript is embedded shallowly: JS numbers that can be `NaN` become
`Option Int` (with `none` playing the role of `NaN`), strings become `String`
or `List Char`, the filesystem becomes a function from resolved paths to
optional file stats, and the fastify reply becomes a record of status,
headers and body.  A synchronous throw inside the async handler (which
fastify converts into a 500 response) is modelled by the 500-producing
branch of the stream constructor.
-/

/-! ### Decimal digits and JS `parseInt` -/

/-- The decimal digit character for `d < 10` (mirrors JS number formatting). -/
def digitChar (d : Nat) : Char :=
  if d = 0 then '0' else if d = 1 then '1' else if d = 2 then '2'
  else if d = 3 then '3' else if d = 4 then '4' else if d = 5 then '5'
  else if d = 6 then '6' else if d = 7 then '7' else if d = 8 then '8' else '9'

/-- Numeric value of a digit character. -/
def digitVal (c : Char) : Nat := c.toNat - 48

/-- Value of a digit string, most significant digit first. -/
def parseDigits (l : List Char) : Nat :=
  l.foldl (fun a c => a * 10 + digitVal c) 0

/-- Fuelled helper for `natDigits`; any fuel above the number works. -/
def natDigitsAux : Nat → Nat → List Char
  | 0, _ => []
  | fuel + 1, n =>
    if n < 10 then [digitChar n]
    else natDigitsAux fuel (n / 10) ++ [digitChar (n % 10)]

/-- Decimal digit list of a natural number (JS `String(n)` for integers). -/
def natDigits (n : Nat) : List Char := natDigitsAux (n + 1) n

/-- Decimal string of a natural number. -/
def natStr (n : Nat) : String := String.mk (natDigits n)

/-- Whitespace characters skipped by JS `parseInt`. -/
def isWs (c : Char) : Bool := c == ' ' || c == '\t' || c == '\n' || c == '\r'

/-- The longest digit prefix, or `none` when there is no digit. -/
def parseDigitsOpt (l : List Char) : Option Nat :=
  let ds := l.takeWhile Char.isDigit
  if ds.isEmpty then none else some (parseDigits ds)

/-- Model of JS `parseInt(s, 10)`: skip whitespace, optional sign, then the
longest digit prefix; `none` models `NaN`. -/
def jsParseInt (l : List Char) : Option Int :=
  match l.dropWhile isWs with
  | [] => none
  | c :: rest =>
    if c = '-' then (parseDigitsOpt rest).map (fun n => -(n : Int))
    else if c = '+' then (parseDigitsOpt rest).map (fun n => (n : Int))
    else (parseDigitsOpt (c :: rest)).map (fun n => (n : Int))

/-- JS `a >= b` where `a` may be `NaN` (every comparison with `NaN` is false). -/
def jsGe : Option Int → Int → Bool
  | none, _ => false
  | some a, b => a ≥ b

/-- JS string interpolation of a number that may be `NaN`. -/
def jsNumStr : Option Int → String
  | none => "NaN"
  | some i => if i < 0 then "-" ++ natStr i.natAbs else natStr i.natAbs

/-! ### List-of-characters utilities (JS `split` and `replace`) -/

/-- JS `s.split(sep)` for a single-character separator. -/
def splitOnChar (sep : Char) : List Char → List (List Char)
  | [] => [[]]
  | c :: rest =>
    let r := splitOnChar sep rest
    if c = sep then [] :: r
    else (c :: r.headD []) :: r.tail

/-- JS `s.replace(pat, '')` for a plain pattern: remove the first occurrence. -/
def replaceFirst : List Char → List Char → List Char
  | [], _ => []
  | c :: rest, pat =>
    if pat.isPrefixOf (c :: rest) then (c :: rest).drop pat.length
    else c :: replaceFirst rest pat

/-- First header value stored under a (case-exact) name. -/
def lookupHeader (k : String) : List (String × String) → Option String
  | [] => none
  | (k0, v) :: t => if k0 = k then some v else lookupHeader k t

/-- The characters of the literal pattern removed from a Range header. -/
def bytesEqChars : List Char := "bytes=".data

/-! ### Path resolution (`path.join(__dirname, 'assets', filename)`) -/

/-- Split a path string into segments at slashes. -/
def splitSlash (s : String) : List String :=
  (splitOnChar '/' s.data).map (fun l => String.mk l)

/-- Normalisation performed by `path.join`: drop empty and `.` segments and
let `..` pop the previous segment (at an absolute root it is a no-op). -/
def normalizeSegs (segs : List String) : List String :=
  segs.foldl
    (fun acc seg =>
      if seg = "" ∨ seg = "." then acc
      else if seg = ".." then acc.dropLast
      else acc ++ [seg]) []

/-- `path.join(__dirname, 'assets', request.params.filename)` as a segment
list, with `__dirname` given as an already-normalised segment list. -/
def resolveVideoPath (dirname : List String) (filename : String) : List String :=
  normalizeSegs (dirname ++ "assets" :: splitSlash filename)

/-- Whether a resolved path stays under a root directory. -/
def underRoot (root p : List String) : Bool :=
  if p.take root.length = root then true else false

/-! ### The request handler -/

/-- Metadata and content of one file; `stat.size` is `bytes.length`. -/
structure FileStat where
  mtime : Nat
  bytes : List Nat
deriving DecidableEq

/-- The parts of an incoming request the handler consumes. -/
structure Req where
  filename : String
  range : Option String
  ifNoneMatch : Option String
deriving DecidableEq

/-- The response assembled by the handler: status, headers in the order they
are attached to the reply, and body bytes. -/
structure Resp where
  status : Nat
  headers : List (String × String)
  body : List Nat
deriving DecidableEq

/-- The filesystem: resolved path segments to an optional file. -/
def Fs : Type := List String → Option FileStat

/-- The ETag computed by the handler: `"${stat.size}-${stat.mtime.getTime()}"`
with surrounding double quotes. -/
def etagString (size mtime : Nat) : String :=
  String.mk ('"' :: (natDigits size ++ '-' :: (natDigits mtime ++ ['"'])))

/-- The two cache headers the handler attaches right after a successful stat. -/
def cacheHeaders (stat : FileStat) : List (String × String) :=
  [("Cache-Control", "public, max-age=31536000"),
   ("ETag", etagString stat.bytes.length stat.mtime)]

/-- The handler's Range parsing:
`parts = range.replace(/bytes=/, '').split('-')`,
`start = parseInt(parts[0], 10)`,
`end = parts[1] ? parseInt(parts[1], 10) : fileSize - 1`. -/
def parseStartEnd (r : List Char) (fileSize : Int) : Option Int × Option Int :=
  let parts := splitOnChar '-' (replaceFirst r bytesEqChars)
  let start := jsParseInt (parts.headD [])
  let endv : Option Int :=
    match parts.tail.head? with
    | some p1 => if p1.isEmpty then some (fileSize - 1) else jsParseInt p1
    | none => some (fileSize - 1)
  (start, endv)

/-- `fs.createReadStream(path, { start, end })`: throws (`none`) when either
offset is `NaN`, negative, or `start > end`; otherwise yields the bytes from
`start` through `end` inclusive, clipped at end of file. -/
def createReadStreamRange (bytes : List Nat) (s e : Option Int) : Option (List Nat) :=
  match s, e with
  | some s, some e =>
    if s < 0 ∨ e < 0 ∨ s > e then none
    else some ((bytes.drop s.toNat).take (e.toNat - s.toNat + 1))
  | _, _ => none

/-- 404 body `"Video not found"`. -/
def notFoundBody : List Nat := "Video not found".data.map Char.toNat

/-- The `if (range)` branch of the handler: parse, validate
(`start >= fileSize || end >= fileSize` gives 416), then either stream the
slice as 206 or, when the read-stream constructor throws, let fastify answer
500 with the headers attached so far. -/
def rangeBranch (stat : FileStat) (r : String) : Resp :=
  let fileSize : Int := (stat.bytes.length : Int)
  let se := parseStartEnd r.data fileSize
  let chunkSize : Option Int :=
    match se.1, se.2 with
    | some a, some b => some (b - a + 1)
    | _, _ => none
  if jsGe se.1 fileSize || jsGe se.2 fileSize then
    { status := 416
      headers := cacheHeaders stat ++
        [("Content-Range", "bytes */" ++ natStr stat.bytes.length)]
      body := [] }
  else
    let hdrs := cacheHeaders stat ++
      [("Content-Range", "bytes " ++ jsNumStr se.1 ++ "-" ++ jsNumStr se.2 ++
          "/" ++ natStr stat.bytes.length),
       ("Accept-Ranges", "bytes"),
       ("Content-Length", jsNumStr chunkSize),
       ("Content-Type", "video/mp4")]
    match createReadStreamRange stat.bytes se.1 se.2 with
    | none => { status := 500, headers := hdrs, body := [] }
    | some data => { status := 206, headers := hdrs, body := data }

/-- The full-body branch (no Range header, or an empty one). -/
def fullBody (stat : FileStat) : Resp :=
  { status := 200
    headers := cacheHeaders stat ++
      [("Content-Length", natStr stat.bytes.length),
       ("Content-Type", "video/mp4"),
       ("Accept-Ranges", "bytes")]
    body := stat.bytes }

/-- The fastify `GET /video/:filename` handler of
`src/Node.js/video-stream/server/src/websocket.js` lines 30-138: resolve the
path, stat (404 on failure), attach cache headers, short-circuit on
`If-None-Match`, then serve a range or the full file. -/
def handleVideo (fs : Fs) (dirname : List String) (req : Req) : Resp :=
  match fs (resolveVideoPath dirname req.filename) with
  | none => { status := 404, headers := [], body := notFoundBody }
  | some stat =>
    if req.ifNoneMatch = some (etagString stat.bytes.length stat.mtime) then
      { status := 304, headers := cacheHeaders stat, body := [] }
    else
      match req.range with
      | some r => if r = "" then fullBody stat else rangeBranch stat r
      | none => fullBody stat

/-! ### The `parseRange` helper of the study notes (websocket.js lines 765-792) -/

/-- `parseRange(rangeHeader, fileSize)` from the notes: handles
`bytes=A-B`, `bytes=A-` and `bytes=-N`; returns `none` (JS `null`) when the
header is falsy, does not start with `bytes=`, or validation
(`isNaN(start) || isNaN(end) || start > end || start < 0`) fails. -/
def parseRange (rangeHeader : List Char) (fileSize : Int) : Option (Int × Int) :=
  if rangeHeader.isEmpty ∨ bytesEqChars.isPrefixOf rangeHeader = false then none
  else
    let parts := splitOnChar '-' (replaceFirst rangeHeader bytesEqChars)
    let start0 := jsParseInt (parts.headD [])
    let end0 := jsParseInt (parts.tail.headD [])
    let se : Option Int × Option Int :=
      if start0 = none ∧ end0 ≠ none then
        (end0.map (fun e => fileSize - e), some (fileSize - 1))
      else if start0 ≠ none ∧ end0 = none then (start0, some (fileSize - 1))
      else (start0, end0)
    match se with
    | (some s, some e) => if s > e ∨ s < 0 then none else some (s, e)
    | _ => none

/-! ### The concurrent-stream limiter (`activeStreams` snippet) -/

/-- State of the limiter: the set of live streams (as distinct ids, mirroring
the JS `Set` of stream objects) and a supply of fresh ids. -/
structure GovState where
  active : List Nat
  nextId : Nat
deriving DecidableEq

/-- Process start: no active streams. -/
def govInit : GovState := ⟨[], 0⟩

/-- One request against the limiter:
`if (activeStreams.size >= MAX_CONCURRENT_STREAMS) return 503` else admit a
fresh stream and serve (200).  Check and insert happen in the same
event-loop turn, hence atomically. -/
def acquireSlot (maxC : Nat) (st : GovState) : GovState × Nat :=
  if st.active.length ≥ maxC then (st, 503)
  else (⟨st.nextId :: st.active, st.nextId + 1⟩, 200)

/-- The stream's `close` handler: `activeStreams.delete(stream)`.  Deleting
an element that is no longer present is a no-op. -/
def releaseSlot (st : GovState) (id : Nat) : GovState :=
  { st with active := st.active.erase id }

/-- Events arriving at the limiter. -/
inductive Ev where
  | request
  | close (id : Nat)
deriving DecidableEq

/-- A run of the limiter: final state plus the status of every request. -/
structure RunResult where
  state : GovState
  statuses : List Nat
deriving DecidableEq

/-- One event step. -/
def govStep (maxC : Nat) (r : RunResult) : Ev → RunResult
  | .request =>
    let p := acquireSlot maxC r.state
    ⟨p.1, r.statuses ++ [p.2]⟩
  | .close id => ⟨releaseSlot r.state id, r.statuses⟩

/-- Run a sequence of events from process start. -/
def govRun (maxC : Nat) (evs : List Ev) : RunResult :=
  evs.foldl (govStep maxC) ⟨govInit, []⟩

/-! ### Lemmas: decimal digits round-trip -/

theorem natDigitsAux_irrel (fuel1 : Nat) : ∀ fuel2 n, n < fuel1 → n < fuel2 →
    natDigitsAux fuel1 n = natDigitsAux fuel2 n := by
  induction fuel1 with
  | zero => intro fuel2 n h1 _; omega
  | succ f ih =>
    intro fuel2 n h1 h2
    cases fuel2 with
    | zero => omega
    | succ f2 =>
      rw [natDigitsAux, natDigitsAux]
      split
      · rfl
      · next hn =>
        rw [ih f2 (n / 10) (by omega) (by omega)]

theorem natDigits_eq (n : Nat) :
    natDigits n =
      if n < 10 then [digitChar n]
      else natDigits (n / 10) ++ [digitChar (n % 10)] := by
  rw [natDigits, natDigitsAux]
  split
  · rfl
  · next hn =>
    rw [natDigitsAux_irrel n (n / 10 + 1) (n / 10) (by omega) (by omega)]
    rfl

theorem digitVal_digitChar (d : Nat) (h : d < 10) : digitVal (digitChar d) = d := by
  interval_cases d <;> decide

theorem isDigit_digitChar (d : Nat) (h : d < 10) : (digitChar d).isDigit = true := by
  interval_cases d <;> decide

theorem natDigits_ne_nil (n : Nat) : natDigits n ≠ [] := by
  rw [natDigits_eq]
  split <;> simp

theorem mem_natDigits_isDigit (n : Nat) : ∀ c ∈ natDigits n, c.isDigit = true := by
  induction n using Nat.strong_induction_on with
  | _ n ih =>
    rw [natDigits_eq]
    split
    · intro c hc
      rw [List.mem_singleton] at hc
      subst hc
      exact isDigit_digitChar n (by omega)
    · intro c hc
      rcases List.mem_append.mp hc with h1 | h1
      · exact ih (n / 10) (Nat.div_lt_self (by omega) (by omega)) c h1
      · rw [List.mem_singleton] at h1
        subst h1
        exact isDigit_digitChar (n % 10) (Nat.mod_lt _ (by omega))

theorem parseDigits_append_singleton (l : List Char) (c : Char) :
    parseDigits (l ++ [c]) = parseDigits l * 10 + digitVal c := by
  simp [parseDigits, List.foldl_append]

theorem parseDigits_natDigits (n : Nat) : parseDigits (natDigits n) = n := by
  induction n using Nat.strong_induction_on with
  | _ n ih =>
    rw [natDigits_eq]
    split
    · next h =>
      show parseDigits [digitChar n] = n
      simp [parseDigits, digitVal_digitChar n h]
    · next h =>
      rw [parseDigits_append_singleton,
        ih (n / 10) (Nat.div_lt_self (by omega) (by omega)),
        digitVal_digitChar (n % 10) (Nat.mod_lt _ (by omega))]
      omega

theorem natDigits_inj {a b : Nat} (h : natDigits a = natDigits b) : a = b := by
  have := congrArg parseDigits h
  rwa [parseDigits_natDigits, parseDigits_natDigits] at this

/-! ### Lemmas: character classes -/

theorem not_ws_of_isDigit (c : Char) (h : c.isDigit = true) : isWs c = false := by
  simp only [isWs, Bool.or_eq_false_iff, beq_eq_false_iff_ne, ne_eq]
  refine ⟨⟨⟨?_, ?_⟩, ?_⟩, ?_⟩ <;> (rintro rfl; exact absurd h (by decide))

theorem ne_dash_of_isDigit (c : Char) (h : c.isDigit = true) : c ≠ '-' := by
  rintro rfl
  exact absurd h (by decide)

theorem ne_plus_of_isDigit (c : Char) (h : c.isDigit = true) : c ≠ '+' := by
  rintro rfl
  exact absurd h (by decide)

theorem dash_not_mem_natDigits (n : Nat) : '-' ∉ natDigits n := by
  intro hmem
  exact ne_dash_of_isDigit _ (mem_natDigits_isDigit n _ hmem) rfl

/-! ### Lemmas: `jsParseInt` on digit strings -/

theorem takeWhile_all_append (p : Char → Bool) (l1 l2 : List Char)
    (h1 : ∀ c ∈ l1, p c = true) (h2 : ∀ c, l2.head? = some c → p c = false) :
    (l1 ++ l2).takeWhile p = l1 := by
  induction l1 with
  | nil =>
    simp only [List.nil_append]
    cases l2 with
    | nil => rfl
    | cons c t =>
      rw [List.takeWhile_cons, h2 c rfl]
      simp
  | cons c t ih =>
    rw [List.cons_append, List.takeWhile_cons, h1 c (by simp)]
    simp only [if_true]
    rw [ih (fun x hx => h1 x (by simp [hx]))]

theorem jsParseInt_natDigits_append (n : Nat) (rest : List Char)
    (h : ∀ c, rest.head? = some c → c.isDigit = false) :
    jsParseInt (natDigits n ++ rest) = some (n : Int) := by
  obtain ⟨c0, cs, hcons⟩ := List.exists_cons_of_ne_nil (natDigits_ne_nil n)
  have hall : ∀ c ∈ c0 :: cs, c.isDigit = true := by
    rw [← hcons]
    exact mem_natDigits_isDigit n
  have hdig : c0.isDigit = true := hall c0 (by simp)
  have hdrop : (natDigits n ++ rest).dropWhile isWs = c0 :: (cs ++ rest) := by
    rw [hcons, List.cons_append, List.dropWhile_cons, not_ws_of_isDigit c0 hdig]
    simp
  have htake : (c0 :: (cs ++ rest)).takeWhile Char.isDigit = c0 :: cs := by
    rw [← List.cons_append]
    exact takeWhile_all_append _ _ _ hall h
  have hpd : parseDigitsOpt (c0 :: (cs ++ rest)) = some n := by
    rw [parseDigitsOpt]
    simp only [htake]
    rw [if_neg (by simp)]
    rw [show parseDigits (c0 :: cs) = n from by rw [← hcons, parseDigits_natDigits]]
  simp only [jsParseInt, hdrop]
  rw [if_neg (ne_dash_of_isDigit c0 hdig), if_neg (ne_plus_of_isDigit c0 hdig), hpd]
  rfl

theorem jsParseInt_natDigits (n : Nat) : jsParseInt (natDigits n) = some (n : Int) := by
  have := jsParseInt_natDigits_append n [] (by intro c hc; cases hc)
  simpa using this

/-! ### Lemmas: splitting and replacing -/

theorem splitOnChar_ne_nil (sep : Char) (l : List Char) : splitOnChar sep l ≠ [] := by
  cases l with
  | nil => simp [splitOnChar]
  | cons c rest =>
    rw [splitOnChar]
    split <;> simp

theorem splitOnChar_no_sep (sep : Char) (l : List Char) (h : ∀ c ∈ l, c ≠ sep) :
    splitOnChar sep l = [l] := by
  induction l with
  | nil => rfl
  | cons c rest ih =>
    rw [splitOnChar]
    simp only [ih (fun x hx => h x (by simp [hx]))]
    rw [if_neg (h c (by simp))]
    rfl

theorem splitOnChar_append_sep (sep : Char) (l1 l2 : List Char)
    (h : ∀ c ∈ l1, c ≠ sep) :
    splitOnChar sep (l1 ++ sep :: l2) = l1 :: splitOnChar sep l2 := by
  induction l1 with
  | nil =>
    rw [List.nil_append, splitOnChar, if_pos rfl]
  | cons c rest ih =>
    rw [List.cons_append, splitOnChar]
    simp only [ih (fun x hx => h x (by simp [hx]))]
    rw [if_neg (h c (by simp))]
    rfl

theorem isPrefixOf_append_self (l1 l2 : List Char) : l1.isPrefixOf (l1 ++ l2) = true := by
  induction l1 with
  | nil => cases l2 <;> rfl
  | cons c rest ih => simp [List.isPrefixOf, ih]

theorem replaceFirst_bytesEq (l : List Char) :
    replaceFirst (bytesEqChars ++ l) bytesEqChars = l := by
  have hpre : bytesEqChars.isPrefixOf (bytesEqChars ++ l) = true :=
    isPrefixOf_append_self bytesEqChars l
  show replaceFirst ('b' :: 'y' :: 't' :: 'e' :: 's' :: '=' :: l) bytesEqChars = l
  rw [replaceFirst]
  rw [show ('b' :: 'y' :: 't' :: 'e' :: 's' :: '=' :: l) = bytesEqChars ++ l from rfl, hpre]
  simp only [if_true]
  rfl

/-! ### Lemmas: `parseStartEnd` on well-formed headers -/

theorem data_bytesEq_append (s : String) :
    ("bytes=" ++ s).data = bytesEqChars ++ s.data := rfl

theorem parseStartEnd_pair (s e : Nat) (L : Int) :
    parseStartEnd ("bytes=" ++ natStr s ++ "-" ++ natStr e).data L =
      (some (s : Int), some (e : Int)) := by
  have hdata : ("bytes=" ++ natStr s ++ "-" ++ natStr e).data =
      bytesEqChars ++ (natDigits s ++ '-' :: natDigits e) := by
    simp [natStr, String.data_append, bytesEqChars]
  rw [parseStartEnd, hdata, replaceFirst_bytesEq]
  rw [splitOnChar_append_sep '-' _ _
    (fun c hc => ne_dash_of_isDigit c (mem_natDigits_isDigit s c hc))]
  rw [splitOnChar_no_sep '-' _
    (fun c hc => ne_dash_of_isDigit c (mem_natDigits_isDigit e c hc))]
  simp only [List.headD_cons, List.tail_cons, List.head?_cons]
  rw [if_neg (by simp [natDigits_ne_nil e])]
  rw [jsParseInt_natDigits, jsParseInt_natDigits]

theorem parseStartEnd_multi (a b c d : Nat) (L : Int) :
    parseStartEnd
      ("bytes=" ++ natStr a ++ "-" ++ natStr b ++ "," ++ natStr c ++ "-" ++ natStr d).data L =
      (some (a : Int), some (b : Int)) := by
  have hdata :
      ("bytes=" ++ natStr a ++ "-" ++ natStr b ++ "," ++ natStr c ++ "-" ++ natStr d).data =
      bytesEqChars ++ (natDigits a ++ '-' :: ((natDigits b ++ ',' :: natDigits c) ++ '-' :: natDigits d)) := by
    simp [natStr, String.data_append, bytesEqChars]
  rw [parseStartEnd, hdata, replaceFirst_bytesEq]
  rw [splitOnChar_append_sep '-' _ _
    (fun x hx => ne_dash_of_isDigit x (mem_natDigits_isDigit a x hx))]
  rw [splitOnChar_append_sep '-' _ _ ?hnd]
  case hnd =>
    intro x hx
    rcases List.mem_append.mp hx with h1 | h1
    · exact ne_dash_of_isDigit x (mem_natDigits_isDigit b x h1)
    · rcases List.mem_cons.mp h1 with h2 | h2
      · subst h2; decide
      · exact ne_dash_of_isDigit x (mem_natDigits_isDigit c x h2)
  simp only [List.headD_cons, List.tail_cons, List.head?_cons]
  rw [if_neg (by simp [natDigits_ne_nil b])]
  rw [jsParseInt_natDigits]
  rw [jsParseInt_natDigits_append b (',' :: natDigits c)
    (by intro x hx; simp only [List.head?_cons, Option.some.injEq] at hx; subst hx; decide)]

theorem parseStartEnd_open (a : Nat) (L : Int) :
    parseStartEnd ("bytes=" ++ natStr a ++ "-").data L = (some (a : Int), some (L - 1)) := by
  have hdata : ("bytes=" ++ natStr a ++ "-").data =
      bytesEqChars ++ (natDigits a ++ '-' :: []) := by
    simp [natStr, String.data_append, bytesEqChars]
  rw [parseStartEnd, hdata, replaceFirst_bytesEq]
  rw [splitOnChar_append_sep '-' _ _
    (fun x hx => ne_dash_of_isDigit x (mem_natDigits_isDigit a x hx))]
  simp only [splitOnChar, List.headD_cons, List.tail_cons, List.head?_cons]
  rw [jsParseInt_natDigits]
  simp

/-! ### Lemmas: ETag injectivity -/

theorem append_sep_inj (sep : Char) {l1 l2 l1' l2' : List Char}
    (h1 : sep ∉ l1) (h1' : sep ∉ l1')
    (heq : l1 ++ sep :: l2 = l1' ++ sep :: l2') : l1 = l1' ∧ l2 = l2' := by
  induction l1 generalizing l1' with
  | nil =>
    cases l1' with
    | nil => simpa using heq
    | cons c t =>
      rw [List.nil_append, List.cons_append, List.cons.injEq] at heq
      exact absurd (heq.1 ▸ List.mem_cons_self c t) h1'
  | cons c t ih =>
    cases l1' with
    | nil =>
      rw [List.nil_append, List.cons_append, List.cons.injEq] at heq
      exact absurd (heq.1 ▸ List.mem_cons_self c t) h1
    | cons c' t' =>
      rw [List.cons_append, List.cons_append, List.cons.injEq] at heq
      obtain ⟨ht, hl⟩ := ih (fun hm => h1 (List.mem_cons_of_mem c hm))
        (fun hm => h1' (List.mem_cons_of_mem c' hm)) heq.2
      exact ⟨by rw [heq.1, ht], hl⟩

theorem ne_dq_of_isDigit (c : Char) (h : c.isDigit = true) : c ≠ '"' := by
  rintro rfl
  exact absurd h (by decide)

theorem dq_not_mem_natDigits (n : Nat) : '"' ∉ natDigits n := by
  intro hmem
  exact ne_dq_of_isDigit _ (mem_natDigits_isDigit n _ hmem) rfl

theorem etagString_inj {s m s' m' : Nat} (h : etagString s m = etagString s' m') :
    s = s' ∧ m = m' := by
  have hd : '"' :: (natDigits s ++ '-' :: (natDigits m ++ ['"'])) =
      '"' :: (natDigits s' ++ '-' :: (natDigits m' ++ ['"'])) := congrArg String.data h
  rw [List.cons.injEq] at hd
  obtain ⟨hs, hrest⟩ := append_sep_inj '-'
    (dash_not_mem_natDigits s) (dash_not_mem_natDigits s') hd.2
  have hm := append_sep_inj '"'
    (dq_not_mem_natDigits m) (dq_not_mem_natDigits m') hrest
  exact ⟨natDigits_inj hs, natDigits_inj hm.1⟩

/-! ### Lemmas: the concurrency limiter -/

/-- Well-formedness of the limiter state: the live set holds no duplicates
and every live id was drawn from the fresh-id supply. -/
def GoodGov (st : GovState) : Prop :=
  st.active.Nodup ∧ ∀ i ∈ st.active, i < st.nextId

theorem goodGov_init : GoodGov govInit := ⟨List.nodup_nil, by intro i hi; cases hi⟩

theorem goodGov_acquire (maxC : Nat) (st : GovState) (h : GoodGov st) :
    GoodGov (acquireSlot maxC st).1 := by
  rw [acquireSlot]
  split
  · exact h
  · show GoodGov (⟨st.nextId :: st.active, st.nextId + 1⟩ : GovState)
    refine ⟨List.nodup_cons.mpr ⟨fun hm => ?_, h.1⟩, ?_⟩
    · exact absurd (h.2 _ hm) (Nat.lt_irrefl _)
    · intro i hi
      rcases List.mem_cons.mp hi with h1 | h1
      · show i < st.nextId + 1
        omega
      · show i < st.nextId + 1
        exact Nat.lt_succ_of_lt (h.2 i h1)

theorem goodGov_release (st : GovState) (id : Nat) (h : GoodGov st) :
    GoodGov (releaseSlot st id) := by
  refine ⟨h.1.sublist (List.erase_sublist id st.active), ?_⟩
  intro i hi
  exact h.2 i (List.mem_of_mem_erase hi)

theorem len_le_acquire (maxC : Nat) (st : GovState) (h : st.active.length ≤ maxC) :
    (acquireSlot maxC st).1.active.length ≤ maxC := by
  rw [acquireSlot]
  split
  · exact h
  · next hlt =>
    simp only [List.length_cons]
    omega

theorem len_le_release (maxC : Nat) (st : GovState) (id : Nat)
    (h : st.active.length ≤ maxC) : (releaseSlot st id).active.length ≤ maxC := by
  exact le_trans ((List.erase_sublist id st.active).length_le) h

theorem govRun_aux (maxC : Nat) (evs : List Ev) (r : RunResult)
    (h1 : r.state.active.length ≤ maxC) (h2 : GoodGov r.state) :
    (evs.foldl (govStep maxC) r).state.active.length ≤ maxC ∧
      GoodGov (evs.foldl (govStep maxC) r).state := by
  induction evs generalizing r with
  | nil => exact ⟨h1, h2⟩
  | cons e t ih =>
    rw [List.foldl_cons]
    apply ih
    · cases e with
      | request => exact len_le_acquire maxC r.state h1
      | close id => exact len_le_release maxC r.state id h1
    · cases e with
      | request => exact goodGov_acquire maxC r.state h2
      | close id => exact goodGov_release r.state id h2

theorem govRun_replicate (maxC k : Nat) :
    govRun maxC (List.replicate k .request) =
      ⟨⟨(List.range (min k maxC)).reverse, min k maxC⟩,
       List.replicate (min k maxC) 200 ++ List.replicate (k - maxC) 503⟩ := by
  induction k with
  | zero => simp [govRun, govInit]
  | succ k ih =>
    rw [List.replicate_succ']
    rw [govRun, List.foldl_append, ← govRun, ih]
    by_cases hk : k < maxC
    · have hmin : min k maxC = k := by omega
      have hmin1 : min (k + 1) maxC = k + 1 := by omega
      rw [hmin, hmin1]
      simp only [List.foldl_cons, List.foldl_nil, govStep, acquireSlot,
        List.length_reverse, List.length_range]
      rw [if_neg (by omega)]
      have hact : k :: (List.range k).reverse = (List.range (k + 1)).reverse := by
        rw [List.range_succ, List.reverse_append]
        rfl
      have hst : (List.replicate k 200 ++ List.replicate (k - maxC) 503) ++ [200] =
          List.replicate (k + 1) 200 ++ List.replicate (k + 1 - maxC) 503 := by
        rw [show k - maxC = 0 from by omega, show k + 1 - maxC = 0 from by omega]
        simp [List.replicate_succ']
      rw [hact, hst]
    · have hmin : min k maxC = maxC := by omega
      have hmin1 : min (k + 1) maxC = maxC := by omega
      rw [hmin, hmin1]
      simp only [List.foldl_cons, List.foldl_nil, govStep, acquireSlot,
        List.length_reverse, List.length_range]
      rw [if_pos (by omega)]
      have hst : (List.replicate maxC 200 ++ List.replicate (k - maxC) 503) ++ [503] =
          List.replicate maxC 200 ++ List.replicate (k + 1 - maxC) 503 := by
        rw [show k + 1 - maxC = (k - maxC) + 1 from by omega]
        rw [List.replicate_succ' (k - maxC) 503, List.append_assoc]
      rw [hst]

/-! ### Small helpers used by the claim theorems -/

theorem lookupHeader_cons_eq (k v : String) (t : List (String × String)) :
    lookupHeader k ((k, v) :: t) = some v := by
  rw [lookupHeader, if_pos rfl]

theorem lookupHeader_cons_ne (k k0 v : String) (t : List (String × String))
    (h : k0 ≠ k) : lookupHeader k ((k0, v) :: t) = lookupHeader k t := by
  rw [lookupHeader, if_neg h]

theorem jsNumStr_coe (n : Nat) : jsNumStr (some (n : Int)) = natStr n := by
  rw [jsNumStr, if_neg (by omega), Int.natAbs_ofNat]

theorem bytesEq_append_ne_empty (s : String) : ("bytes=" ++ s) ≠ "" := by
  intro hc
  have hd : bytesEqChars ++ s.data = [] := congrArg String.data hc
  simp [bytesEqChars] at hd

/-- C1: for every resource and every pair `start <= end < totalLength`, a GET
with header `Range: bytes=start-end` yields status 206, a
`Content-Range: bytes start-end/totalLength` header, a `Content-Length`
header equal to `end - start + 1`, and a body that is exactly the
`end - start + 1` bytes of the resource at offset `start`. -/
theorem claim1_valid_range_206 (fs : Fs) (dirname : List String) (name : String)
    (stat : FileStat) (s e : Nat)
    (hfs : fs (resolveVideoPath dirname name) = some stat)
    (hse : s ≤ e) (he : e < stat.bytes.length) :
    (handleVideo fs dirname ⟨name, some ("bytes=" ++ (natStr s ++ ("-" ++ natStr e))), none⟩).status = 206 ∧
    lookupHeader "Content-Range"
        (handleVideo fs dirname ⟨name, some ("bytes=" ++ (natStr s ++ ("-" ++ natStr e))), none⟩).headers =
      some ("bytes " ++ natStr s ++ "-" ++ natStr e ++ "/" ++ natStr stat.bytes.length) ∧
    lookupHeader "Content-Length"
        (handleVideo fs dirname ⟨name, some ("bytes=" ++ (natStr s ++ ("-" ++ natStr e))), none⟩).headers =
      some (natStr (e - s + 1)) ∧
    (handleVideo fs dirname ⟨name, some ("bytes=" ++ (natStr s ++ ("-" ++ natStr e))), none⟩).body =
      (stat.bytes.drop s).take (e - s + 1) ∧
    (handleVideo fs dirname ⟨name, some ("bytes=" ++ (natStr s ++ ("-" ++ natStr e))), none⟩).body.length =
      e - s + 1 := by
  have hL : (0 : Int) ≤ (stat.bytes.length : Int) := by positivity
  have hpair : parseStartEnd ("bytes=" ++ (natStr s ++ ("-" ++ natStr e))).data
      ((stat.bytes.length : Nat) : Int) = (some (s : Int), some (e : Int)) := by
    have := parseStartEnd_pair s e ((stat.bytes.length : Nat) : Int)
    rw [show ("bytes=" ++ natStr s ++ "-" ++ natStr e) =
      ("bytes=" ++ (natStr s ++ ("-" ++ natStr e))) from by simp [String.append_assoc]] at this
    exact this
  have hresp : handleVideo fs dirname ⟨name, some ("bytes=" ++ (natStr s ++ ("-" ++ natStr e))), none⟩ =
      rangeBranch stat ("bytes=" ++ (natStr s ++ ("-" ++ natStr e))) := by
    simp only [handleVideo, hfs]
    rw [if_neg (by simp)]
    rw [if_neg (bytesEq_append_ne_empty _)]
  have hbranch : rangeBranch stat ("bytes=" ++ (natStr s ++ ("-" ++ natStr e))) =
      { status := 206
        headers := cacheHeaders stat ++
          [("Content-Range", "bytes " ++ natStr s ++ "-" ++ natStr e ++ "/" ++ natStr stat.bytes.length),
           ("Accept-Ranges", "bytes"),
           ("Content-Length", natStr (e - s + 1)),
           ("Content-Type", "video/mp4")]
        body := (stat.bytes.drop s).take (e - s + 1) } := by
    rw [rangeBranch]
    simp only [hpair]
    rw [if_neg (by
      simp only [jsGe, Bool.or_eq_true, decide_eq_true_eq]
      omega)]
    rw [createReadStreamRange]
    rw [if_neg (by omega)]
    simp only [Int.toNat_ofNat]
    rw [jsNumStr_coe s, jsNumStr_coe e]
    rw [show ((e : Int) - (s : Int) + 1) = ((e - s + 1 : Nat) : Int) from by push_cast; omega]
    rw [jsNumStr_coe (e - s + 1)]
  rw [hresp, hbranch]
  refine ⟨rfl, ?_, ?_, rfl, ?_⟩
  · rw [cacheHeaders, List.cons_append, List.cons_append,
      lookupHeader_cons_ne _ _ _ _ (by decide), lookupHeader_cons_ne _ _ _ _ (by decide),
      List.nil_append, lookupHeader_cons_eq]
  · rw [cacheHeaders, List.cons_append, List.cons_append,
      lookupHeader_cons_ne _ _ _ _ (by decide), lookupHeader_cons_ne _ _ _ _ (by decide),
      List.nil_append,
      lookupHeader_cons_ne _ _ _ _ (by decide), lookupHeader_cons_ne _ _ _ _ (by decide),
      lookupHeader_cons_eq]
  · rw [List.length_take, List.length_drop]
    omega

/-! ### Concrete filesystems used by witnesses and counterexamples -/

/-- A 5-byte video under the assets root. -/
def fsDemo : Fs :=
  fun p => if p = ["d", "assets", "v.mp4"] then some ⟨7, [10, 20, 30, 40, 50]⟩ else none

/-- A 0-byte video under the assets root. -/
def fsEmpty : Fs :=
  fun p => if p = ["d", "assets", "v.mp4"] then some ⟨7, []⟩ else none

/-- A 1000-byte video under the assets root. -/
def fsKilo : Fs :=
  fun p => if p = ["d", "assets", "v.mp4"] then some ⟨7, List.replicate 1000 42⟩ else none

/-- A 60-byte video (bytes 0..59) under the assets root. -/
def fsSixty : Fs :=
  fun p => if p = ["d", "assets", "v.mp4"] then some ⟨7, List.range 60⟩ else none

/-- A filesystem whose only file lies outside the assets root
(`/home/secret.mp4` while the root is `/home/assets`). -/
def fsSecret : Fs :=
  fun p => if p = ["home", "secret.mp4"] then some ⟨3, [9, 9, 9]⟩ else none

theorem createReadStreamRange_none_left (bytes : List Nat) (e : Option Int) :
    createReadStreamRange bytes none e = none := by
  cases e <;> rfl

/-- C1 witness: the 5-byte demo resource with `Range: bytes=1-3`. -/
theorem claim1_witness :
    1 ≤ 3 ∧ 3 < (FileStat.mk 7 [10, 20, 30, 40, 50]).bytes.length ∧
    ((handleVideo fsDemo ["d"] ⟨"v.mp4", some ("bytes=" ++ (natStr 1 ++ ("-" ++ natStr 3))), none⟩).status = 206 ∧
     lookupHeader "Content-Range"
         (handleVideo fsDemo ["d"] ⟨"v.mp4", some ("bytes=" ++ (natStr 1 ++ ("-" ++ natStr 3))), none⟩).headers =
       some ("bytes " ++ natStr 1 ++ "-" ++ natStr 3 ++ "/" ++
         natStr (FileStat.mk 7 [10, 20, 30, 40, 50]).bytes.length) ∧
     lookupHeader "Content-Length"
         (handleVideo fsDemo ["d"] ⟨"v.mp4", some ("bytes=" ++ (natStr 1 ++ ("-" ++ natStr 3))), none⟩).headers =
       some (natStr (3 - 1 + 1)) ∧
     (handleVideo fsDemo ["d"] ⟨"v.mp4", some ("bytes=" ++ (natStr 1 ++ ("-" ++ natStr 3))), none⟩).body =
       ((FileStat.mk 7 [10, 20, 30, 40, 50]).bytes.drop 1).take (3 - 1 + 1) ∧
     (handleVideo fsDemo ["d"] ⟨"v.mp4", some ("bytes=" ++ (natStr 1 ++ ("-" ++ natStr 3))), none⟩).body.length =
       3 - 1 + 1) :=
  ⟨by decide, by decide,
    claim1_valid_range_206 fsDemo ["d"] "v.mp4" ⟨7, [10, 20, 30, 40, 50]⟩ 1 3
      (by decide) (by decide) (by decide)⟩

/-- C2 counterexample: `Range: bytes=abc-def` on an existing 5-byte resource
produces a 500 (the NaN offsets reach `fs.createReadStream`, which throws),
not the claimed 200 full-body response. -/
theorem claim2_counterexample :
    (handleVideo fsDemo ["d"] ⟨"v.mp4", some "bytes=abc-def", none⟩).status = 500 ∧
    (handleVideo fsDemo ["d"] ⟨"v.mp4", some "bytes=abc-def", none⟩).status ≠ 200 := by
  constructor <;> decide

/-- C2 amended: a Range header whose first token parses to NaN, and whose
parsed end does not trigger the 416 check, is not treated as absent: the
handler keeps the NaN offsets, `fs.createReadStream` throws, and fastify
answers 500 instead of a 200 full-body response. -/
theorem claim2_amended (fs : Fs) (dirname : List String) (name : String)
    (stat : FileStat) (r : String)
    (hfs : fs (resolveVideoPath dirname name) = some stat)
    (hr : r ≠ "")
    (h1 : (parseStartEnd r.data ((stat.bytes.length : Nat) : Int)).1 = none)
    (h2 : jsGe (parseStartEnd r.data ((stat.bytes.length : Nat) : Int)).2
      ((stat.bytes.length : Nat) : Int) = false) :
    (handleVideo fs dirname ⟨name, some r, none⟩).status = 500 := by
  simp only [handleVideo, hfs]
  rw [if_neg (by simp), if_neg hr]
  simp only [rangeBranch]
  rw [h1, h2]
  rw [if_neg (by simp [jsGe])]
  rw [createReadStreamRange_none_left]

/-- C2 witness for the amended statement: `Range: bytes=x-` on the 5-byte
resource (start is NaN, end defaults to 4, so the 416 guard passes). -/
theorem claim2_witness :
    (fsDemo (resolveVideoPath ["d"] "v.mp4") = some ⟨7, [10, 20, 30, 40, 50]⟩ ∧
     "bytes=x-" ≠ "" ∧
     (parseStartEnd "bytes=x-".data (((FileStat.mk 7 [10, 20, 30, 40, 50]).bytes.length : Nat) : Int)).1 = none ∧
     jsGe (parseStartEnd "bytes=x-".data (((FileStat.mk 7 [10, 20, 30, 40, 50]).bytes.length : Nat) : Int)).2
       (((FileStat.mk 7 [10, 20, 30, 40, 50]).bytes.length : Nat) : Int) = false) ∧
    (handleVideo fsDemo ["d"] ⟨"v.mp4", some "bytes=x-", none⟩).status = 500 :=
  ⟨⟨by decide, by decide, by decide, by decide⟩,
    claim2_amended fsDemo ["d"] "v.mp4" ⟨7, [10, 20, 30, 40, 50]⟩ "bytes=x-"
      (by decide) (by decide) (by decide) (by decide)⟩

/-- Shared helper: whenever the handler's parsed start or parsed end compares
`>= fileSize`, the whole response is the 416 record. -/
theorem rangeReject416 (fs : Fs) (dirname : List String) (name : String)
    (stat : FileStat) (r : String)
    (hfs : fs (resolveVideoPath dirname name) = some stat) (hr : r ≠ "")
    (hge : jsGe (parseStartEnd r.data ((stat.bytes.length : Nat) : Int)).1
        ((stat.bytes.length : Nat) : Int) = true ∨
      jsGe (parseStartEnd r.data ((stat.bytes.length : Nat) : Int)).2
        ((stat.bytes.length : Nat) : Int) = true) :
    handleVideo fs dirname ⟨name, some r, none⟩ =
      { status := 416
        headers := cacheHeaders stat ++
          [("Content-Range", "bytes */" ++ natStr stat.bytes.length)]
        body := [] } := by
  simp only [handleVideo, hfs]
  rw [if_neg (by simp), if_neg hr]
  simp only [rangeBranch]
  rw [if_pos (by rcases hge with h | h <;> simp [h])]

/-- C3 counterexample: with `totalLength == 0` (empty file) the range request
`bytes=abc-def` is answered 500, not the claimed 416. -/
theorem claim3_counterexample :
    (handleVideo fsEmpty ["d"] ⟨"v.mp4", some "bytes=abc-def", none⟩).status = 500 ∧
    (handleVideo fsEmpty ["d"] ⟨"v.mp4", some "bytes=abc-def", none⟩).status ≠ 416 := by
  constructor <;> decide

/-- C3 amended: every range request whose handler-parsed start or end
compares `>= totalLength` (in particular any request with a numeric start
`>= totalLength`, and any request with at least one numeric field when
`totalLength == 0`) yields 416 with header
`Content-Range: bytes */totalLength`, no body, and no `Content-Length`
header; requests where both parsed fields are NaN escape this check. -/
theorem claim3_amended (fs : Fs) (dirname : List String) (name : String)
    (stat : FileStat) (r : String)
    (hfs : fs (resolveVideoPath dirname name) = some stat) (hr : r ≠ "")
    (hge : jsGe (parseStartEnd r.data ((stat.bytes.length : Nat) : Int)).1
        ((stat.bytes.length : Nat) : Int) = true ∨
      jsGe (parseStartEnd r.data ((stat.bytes.length : Nat) : Int)).2
        ((stat.bytes.length : Nat) : Int) = true) :
    (handleVideo fs dirname ⟨name, some r, none⟩).status = 416 ∧
    lookupHeader "Content-Range" (handleVideo fs dirname ⟨name, some r, none⟩).headers =
      some ("bytes */" ++ natStr stat.bytes.length) ∧
    (handleVideo fs dirname ⟨name, some r, none⟩).body = [] ∧
    lookupHeader "Content-Length" (handleVideo fs dirname ⟨name, some r, none⟩).headers = none := by
  rw [rangeReject416 fs dirname name stat r hfs hr hge]
  refine ⟨rfl, ?_, rfl, ?_⟩
  · rw [cacheHeaders, List.cons_append, List.cons_append, List.nil_append,
      lookupHeader_cons_ne _ _ _ _ (by decide), lookupHeader_cons_ne _ _ _ _ (by decide),
      lookupHeader_cons_eq]
  · rw [cacheHeaders, List.cons_append, List.cons_append, List.nil_append,
      lookupHeader_cons_ne _ _ _ _ (by decide), lookupHeader_cons_ne _ _ _ _ (by decide),
      lookupHeader_cons_ne _ _ _ _ (by decide)]
    rfl

/-- C3 witness for the amended statement: `bytes=5-` on the 5-byte resource
(parsed start 5 is `>= 5`). -/
theorem claim3_witness :
    (fsDemo (resolveVideoPath ["d"] "v.mp4") = some ⟨7, [10, 20, 30, 40, 50]⟩ ∧
     "bytes=5-" ≠ "" ∧
     jsGe (parseStartEnd "bytes=5-".data (((FileStat.mk 7 [10, 20, 30, 40, 50]).bytes.length : Nat) : Int)).1
       (((FileStat.mk 7 [10, 20, 30, 40, 50]).bytes.length : Nat) : Int) = true) ∧
    ((handleVideo fsDemo ["d"] ⟨"v.mp4", some "bytes=5-", none⟩).status = 416 ∧
     lookupHeader "Content-Range" (handleVideo fsDemo ["d"] ⟨"v.mp4", some "bytes=5-", none⟩).headers =
       some ("bytes */" ++ natStr (FileStat.mk 7 [10, 20, 30, 40, 50]).bytes.length) ∧
     (handleVideo fsDemo ["d"] ⟨"v.mp4", some "bytes=5-", none⟩).body = [] ∧
     lookupHeader "Content-Length" (handleVideo fsDemo ["d"] ⟨"v.mp4", some "bytes=5-", none⟩).headers = none) :=
  ⟨⟨by decide, by decide, by decide⟩,
    claim3_amended fsDemo ["d"] "v.mp4" ⟨7, [10, 20, 30, 40, 50]⟩ "bytes=5-"
      (by decide) (by decide) (Or.inl (by decide))⟩

set_option maxRecDepth 100000 in
/-- C4 counterexample: on the 1000-byte resource, `Range: bytes=999-2000`
yields 416 with `Content-Range: bytes */1000`, not the claimed clamped 206. -/
theorem claim4_counterexample :
    (handleVideo fsKilo ["d"] ⟨"v.mp4", some "bytes=999-2000", none⟩).status = 416 ∧
    (handleVideo fsKilo ["d"] ⟨"v.mp4", some "bytes=999-2000", none⟩).status ≠ 206 ∧
    lookupHeader "Content-Range"
      (handleVideo fsKilo ["d"] ⟨"v.mp4", some "bytes=999-2000", none⟩).headers =
      some "bytes */1000" := by
  refine ⟨by decide, by decide, by decide⟩

/-- C4 amended: a range `bytes=A-B` with `A < totalLength <= B` is not
clamped; the handler rejects it with 416, `Content-Range: bytes */totalLength`
and no body. -/
theorem claim4_amended (fs : Fs) (dirname : List String) (name : String)
    (stat : FileStat) (a b : Nat)
    (hfs : fs (resolveVideoPath dirname name) = some stat)
    (_ha : a < stat.bytes.length) (hb : stat.bytes.length ≤ b) :
    (handleVideo fs dirname ⟨name, some ("bytes=" ++ natStr a ++ "-" ++ natStr b), none⟩).status = 416 ∧
    lookupHeader "Content-Range"
        (handleVideo fs dirname ⟨name, some ("bytes=" ++ natStr a ++ "-" ++ natStr b), none⟩).headers =
      some ("bytes */" ++ natStr stat.bytes.length) ∧
    (handleVideo fs dirname ⟨name, some ("bytes=" ++ natStr a ++ "-" ++ natStr b), none⟩).body = [] := by
  have hge : jsGe (parseStartEnd ("bytes=" ++ natStr a ++ "-" ++ natStr b).data
      ((stat.bytes.length : Nat) : Int)).2 ((stat.bytes.length : Nat) : Int) = true := by
    rw [parseStartEnd_pair]
    simp only [jsGe, decide_eq_true_eq]
    exact_mod_cast hb
  have hne : ("bytes=" ++ natStr a ++ "-" ++ natStr b) ≠ "" := by
    intro hc
    have hd : (bytesEqChars ++ natDigits a ++ ['-'] ++ natDigits b) = [] := congrArg String.data hc
    simp [bytesEqChars] at hd
  rw [rangeReject416 fs dirname name stat _ hfs hne (Or.inr hge)]
  refine ⟨rfl, ?_, rfl⟩
  rw [cacheHeaders, List.cons_append, List.cons_append, List.nil_append,
    lookupHeader_cons_ne _ _ _ _ (by decide), lookupHeader_cons_ne _ _ _ _ (by decide),
    lookupHeader_cons_eq]

/-- C4 witness for the amended statement: `bytes=3-10` on the 5-byte
resource. -/
theorem claim4_witness :
    (fsDemo (resolveVideoPath ["d"] "v.mp4") = some ⟨7, [10, 20, 30, 40, 50]⟩ ∧
     3 < (FileStat.mk 7 [10, 20, 30, 40, 50]).bytes.length ∧
     (FileStat.mk 7 [10, 20, 30, 40, 50]).bytes.length ≤ 10) ∧
    ((handleVideo fsDemo ["d"] ⟨"v.mp4", some ("bytes=" ++ natStr 3 ++ "-" ++ natStr 10), none⟩).status = 416 ∧
     lookupHeader "Content-Range"
         (handleVideo fsDemo ["d"] ⟨"v.mp4", some ("bytes=" ++ natStr 3 ++ "-" ++ natStr 10), none⟩).headers =
       some ("bytes */" ++ natStr (FileStat.mk 7 [10, 20, 30, 40, 50]).bytes.length) ∧
     (handleVideo fsDemo ["d"] ⟨"v.mp4", some ("bytes=" ++ natStr 3 ++ "-" ++ natStr 10), none⟩).body = []) :=
  ⟨⟨by decide, by decide, by decide⟩,
    claim4_amended fsDemo ["d"] "v.mp4" ⟨7, [10, 20, 30, 40, 50]⟩ 3 10
      (by decide) (by decide) (by decide)⟩

/-- C5 counterexample: on a 10-byte resource, `parseRange` rejects
`bytes=-20` (`start = 10 - 20 < 0` fails validation) instead of clamping to
the claimed interval `[max(0, -10), 9] = [0, 9]`. -/
theorem claim5_counterexample :
    parseRange "bytes=-20".data ((10 : Nat) : Int) = none ∧
    parseRange "bytes=-20".data ((10 : Nat) : Int) ≠ some (0, 9) := by
  constructor <;> decide

/-- C5 amended: for `1 <= N <= totalLength`, `parseRange` sends `bytes=0-`
to `[0, totalLength-1]` and `bytes=-N` to `[totalLength-N, totalLength-1]`
(so `bytes=-totalLength` gives `[0, totalLength-1]`); for `N > totalLength`
it fails instead of clamping the start to 0. -/
theorem claim5_amended (L n : Nat) (h1 : 1 ≤ n) (h2 : n ≤ L) :
    parseRange "bytes=0-".data ((L : Nat) : Int) = some (0, (L : Int) - 1) ∧
    parseRange ("bytes=-" ++ natStr n).data ((L : Nat) : Int) =
      some ((L : Int) - (n : Int), (L : Int) - 1) := by
  constructor
  · rw [parseRange, if_neg (by decide)]
    have hsplit : splitOnChar '-' (replaceFirst "bytes=0-".data bytesEqChars) = [['0'], []] := by
      decide
    rw [hsplit]
    simp only [List.headD_cons, List.tail_cons]
    rw [show jsParseInt ['0'] = some 0 from by decide,
      show jsParseInt ([] : List Char) = none from by decide]
    simp only [reduceCtorEq, ne_eq, false_and, if_false, not_false_eq_true, and_true, if_true]
    rw [if_neg (by omega)]
  · have hdata : ("bytes=-" ++ natStr n).data = bytesEqChars ++ ('-' :: natDigits n) := by
      simp [natStr, bytesEqChars]
    rw [parseRange, hdata, if_neg ?hcond]
    case hcond =>
      rintro (hemp | hpre)
      · simp at hemp
      · rw [isPrefixOf_append_self] at hpre
        cases hpre
    rw [replaceFirst_bytesEq]
    rw [show splitOnChar '-' ('-' :: natDigits n) = [] :: splitOnChar '-' (natDigits n) from by
      rw [splitOnChar, if_pos rfl]]
    rw [splitOnChar_no_sep '-' (natDigits n)
      (fun c hc => ne_dash_of_isDigit c (mem_natDigits_isDigit n c hc))]
    simp only [List.headD_cons, List.tail_cons]
    rw [show jsParseInt ([] : List Char) = none from by decide, jsParseInt_natDigits]
    simp only [reduceCtorEq, ne_eq, not_false_eq_true, and_self, if_true, Option.map_some']
    rw [if_neg (by omega)]

/-- C5 witness for the amended statement: `totalLength = 10`, `N = 10`:
both `bytes=0-` and `bytes=-10` parse to `[0, 9]`. -/
theorem claim5_witness :
    (1 ≤ 10 ∧ 10 ≤ 10) ∧
    (parseRange "bytes=0-".data ((10 : Nat) : Int) = some (0, ((10 : Nat) : Int) - 1) ∧
     parseRange ("bytes=-" ++ natStr 10).data ((10 : Nat) : Int) =
       some (((10 : Nat) : Int) - ((10 : Nat) : Int), ((10 : Nat) : Int) - 1)) :=
  ⟨⟨by decide, by decide⟩, claim5_amended 10 10 (by decide) (by decide)⟩

/-- Shared helper: when the handler's Range parsing yields numeric
`start <= end < fileSize`, the response is the full 206 record. -/
theorem rangeServe206 (fs : Fs) (dirname : List String) (name : String)
    (stat : FileStat) (r : String) (a b : Nat)
    (hfs : fs (resolveVideoPath dirname name) = some stat) (hr : r ≠ "")
    (hpair : parseStartEnd r.data ((stat.bytes.length : Nat) : Int) =
      (some (a : Int), some (b : Int)))
    (hab : a ≤ b) (hbL : b < stat.bytes.length) :
    handleVideo fs dirname ⟨name, some r, none⟩ =
      { status := 206
        headers := cacheHeaders stat ++
          [("Content-Range",
            "bytes " ++ natStr a ++ "-" ++ natStr b ++ "/" ++ natStr stat.bytes.length),
           ("Accept-Ranges", "bytes"),
           ("Content-Length", natStr (b - a + 1)),
           ("Content-Type", "video/mp4")]
        body := (stat.bytes.drop a).take (b - a + 1) } := by
  simp only [handleVideo, hfs]
  rw [if_neg (by simp), if_neg hr]
  rw [rangeBranch]
  simp only [hpair]
  rw [if_neg (by
    simp only [jsGe, Bool.or_eq_true, decide_eq_true_eq]
    omega)]
  rw [createReadStreamRange]
  rw [if_neg (by omega)]
  simp only [Int.toNat_ofNat]
  rw [jsNumStr_coe a, jsNumStr_coe b]
  rw [show ((b : Int) - (a : Int) + 1) = ((b - a + 1 : Nat) : Int) from by push_cast; omega]
  rw [jsNumStr_coe (b - a + 1)]

/-- C6 counterexample: the multi-range request `bytes=0-50,100-150` on a
60-byte resource is not rejected: the handler silently serves the first
listed range as a 206 whose body is the first 51 bytes. -/
theorem claim6_counterexample :
    (handleVideo fsSixty ["d"] ⟨"v.mp4", some "bytes=0-50,100-150", none⟩).status = 206 ∧
    lookupHeader "Content-Range"
      (handleVideo fsSixty ["d"] ⟨"v.mp4", some "bytes=0-50,100-150", none⟩).headers =
      some "bytes 0-50/60" ∧
    (handleVideo fsSixty ["d"] ⟨"v.mp4", some "bytes=0-50,100-150", none⟩).body =
      (List.range 60).take 51 := by
  refine ⟨by decide, by decide, by decide⟩

/-- C6 amended: a comma-separated multi-range header `bytes=A-B,C-D` is not
rejected; `parseInt` stops at the comma, so whenever `A <= B < totalLength`
the handler serves exactly the first range: 206 with
`Content-Range: bytes A-B/totalLength` and the bytes `A..B`. -/
theorem claim6_amended (fs : Fs) (dirname : List String) (name : String)
    (stat : FileStat) (a b c d : Nat)
    (hfs : fs (resolveVideoPath dirname name) = some stat)
    (hab : a ≤ b) (hbL : b < stat.bytes.length) :
    (handleVideo fs dirname
        ⟨name, some ("bytes=" ++ natStr a ++ "-" ++ natStr b ++ "," ++ natStr c ++ "-" ++ natStr d),
          none⟩).status = 206 ∧
    lookupHeader "Content-Range"
        (handleVideo fs dirname
          ⟨name, some ("bytes=" ++ natStr a ++ "-" ++ natStr b ++ "," ++ natStr c ++ "-" ++ natStr d),
            none⟩).headers =
      some ("bytes " ++ natStr a ++ "-" ++ natStr b ++ "/" ++ natStr stat.bytes.length) ∧
    (handleVideo fs dirname
        ⟨name, some ("bytes=" ++ natStr a ++ "-" ++ natStr b ++ "," ++ natStr c ++ "-" ++ natStr d),
          none⟩).body =
      (stat.bytes.drop a).take (b - a + 1) := by
  have hne : ("bytes=" ++ natStr a ++ "-" ++ natStr b ++ "," ++ natStr c ++ "-" ++ natStr d) ≠ "" := by
    intro hc
    have hd := congrArg String.data hc
    simp [bytesEqChars, natStr] at hd
  rw [rangeServe206 fs dirname name stat _ a b hfs hne (parseStartEnd_multi a b c d _) hab hbL]
  refine ⟨rfl, ?_, rfl⟩
  rw [cacheHeaders, List.cons_append, List.cons_append, List.nil_append,
    lookupHeader_cons_ne _ _ _ _ (by decide), lookupHeader_cons_ne _ _ _ _ (by decide),
    lookupHeader_cons_eq]

/-- C6 witness for the amended statement: `bytes=1-2,3-4` on the 5-byte
resource serves only bytes 1..2. -/
theorem claim6_witness :
    (fsDemo (resolveVideoPath ["d"] "v.mp4") = some ⟨7, [10, 20, 30, 40, 50]⟩ ∧
     1 ≤ 2 ∧ 2 < (FileStat.mk 7 [10, 20, 30, 40, 50]).bytes.length) ∧
    ((handleVideo fsDemo ["d"]
        ⟨"v.mp4", some ("bytes=" ++ natStr 1 ++ "-" ++ natStr 2 ++ "," ++ natStr 3 ++ "-" ++ natStr 4),
          none⟩).status = 206 ∧
     lookupHeader "Content-Range"
         (handleVideo fsDemo ["d"]
           ⟨"v.mp4", some ("bytes=" ++ natStr 1 ++ "-" ++ natStr 2 ++ "," ++ natStr 3 ++ "-" ++ natStr 4),
             none⟩).headers =
       some ("bytes " ++ natStr 1 ++ "-" ++ natStr 2 ++ "/" ++
         natStr (FileStat.mk 7 [10, 20, 30, 40, 50]).bytes.length) ∧
     (handleVideo fsDemo ["d"]
         ⟨"v.mp4", some ("bytes=" ++ natStr 1 ++ "-" ++ natStr 2 ++ "," ++ natStr 3 ++ "-" ++ natStr 4),
           none⟩).body =
       ((FileStat.mk 7 [10, 20, 30, 40, 50]).bytes.drop 1).take (2 - 1 + 1)) :=
  ⟨⟨by decide, by decide, by decide⟩,
    claim6_amended fsDemo ["d"] "v.mp4" ⟨7, [10, 20, 30, 40, 50]⟩ 1 2 3 4
      (by decide) (by decide) (by decide)⟩

/-- C7: a request whose `If-None-Match` equals the resource's current
validator gets 304 with empty body and neither `Content-Range` nor
`Content-Length`; the response is the same whatever the Range header says
(range parsing never runs), and any resource with different
(length, mtime) has a different validator, so the same header value no
longer matches. -/
theorem claim7_conditional_304 (fs : Fs) (dirname : List String) (name : String)
    (stat : FileStat) (rg rg2 : Option String) (s2 m2 : Nat)
    (hfs : fs (resolveVideoPath dirname name) = some stat)
    (hne : (s2, m2) ≠ (stat.bytes.length, stat.mtime)) :
    (handleVideo fs dirname ⟨name, rg, some (etagString stat.bytes.length stat.mtime)⟩).status = 304 ∧
    (handleVideo fs dirname ⟨name, rg, some (etagString stat.bytes.length stat.mtime)⟩).body = [] ∧
    lookupHeader "Content-Range"
      (handleVideo fs dirname ⟨name, rg, some (etagString stat.bytes.length stat.mtime)⟩).headers = none ∧
    lookupHeader "Content-Length"
      (handleVideo fs dirname ⟨name, rg, some (etagString stat.bytes.length stat.mtime)⟩).headers = none ∧
    handleVideo fs dirname ⟨name, rg2, some (etagString stat.bytes.length stat.mtime)⟩ =
      handleVideo fs dirname ⟨name, rg, some (etagString stat.bytes.length stat.mtime)⟩ ∧
    etagString s2 m2 ≠ etagString stat.bytes.length stat.mtime := by
  have h304 : ∀ r0 : Option String,
      handleVideo fs dirname ⟨name, r0, some (etagString stat.bytes.length stat.mtime)⟩ =
        { status := 304, headers := cacheHeaders stat, body := [] } := by
    intro r0
    simp only [handleVideo, hfs]
    simp
  rw [h304 rg, h304 rg2]
  refine ⟨rfl, rfl, ?_, ?_, rfl, ?_⟩
  · rw [cacheHeaders, lookupHeader_cons_ne _ _ _ _ (by decide),
      lookupHeader_cons_ne _ _ _ _ (by decide)]
    rfl
  · rw [cacheHeaders, lookupHeader_cons_ne _ _ _ _ (by decide),
      lookupHeader_cons_ne _ _ _ _ (by decide)]
    rfl
  · intro hc
    obtain ⟨hs, hm⟩ := etagString_inj hc
    exact hne (by rw [hs, hm])

/-- C7 witness: the 5-byte demo resource, `If-None-Match: "5-7"`, any Range
header; a changed resource `(0, 0)` no longer matches. -/
theorem claim7_witness :
    (fsDemo (resolveVideoPath ["d"] "v.mp4") = some ⟨7, [10, 20, 30, 40, 50]⟩ ∧
     ((0 : Nat), (0 : Nat)) ≠ ((FileStat.mk 7 [10, 20, 30, 40, 50]).bytes.length,
       (FileStat.mk 7 [10, 20, 30, 40, 50]).mtime)) ∧
    ((handleVideo fsDemo ["d"]
        ⟨"v.mp4", some "bytes=0-1",
          some (etagString (FileStat.mk 7 [10, 20, 30, 40, 50]).bytes.length
            (FileStat.mk 7 [10, 20, 30, 40, 50]).mtime)⟩).status = 304 ∧
     (handleVideo fsDemo ["d"]
        ⟨"v.mp4", some "bytes=0-1",
          some (etagString (FileStat.mk 7 [10, 20, 30, 40, 50]).bytes.length
            (FileStat.mk 7 [10, 20, 30, 40, 50]).mtime)⟩).body = [] ∧
     lookupHeader "Content-Range"
       (handleVideo fsDemo ["d"]
         ⟨"v.mp4", some "bytes=0-1",
           some (etagString (FileStat.mk 7 [10, 20, 30, 40, 50]).bytes.length
             (FileStat.mk 7 [10, 20, 30, 40, 50]).mtime)⟩).headers = none ∧
     lookupHeader "Content-Length"
       (handleVideo fsDemo ["d"]
         ⟨"v.mp4", some "bytes=0-1",
           some (etagString (FileStat.mk 7 [10, 20, 30, 40, 50]).bytes.length
             (FileStat.mk 7 [10, 20, 30, 40, 50]).mtime)⟩).headers = none ∧
     handleVideo fsDemo ["d"]
         ⟨"v.mp4", none,
           some (etagString (FileStat.mk 7 [10, 20, 30, 40, 50]).bytes.length
             (FileStat.mk 7 [10, 20, 30, 40, 50]).mtime)⟩ =
       handleVideo fsDemo ["d"]
         ⟨"v.mp4", some "bytes=0-1",
           some (etagString (FileStat.mk 7 [10, 20, 30, 40, 50]).bytes.length
             (FileStat.mk 7 [10, 20, 30, 40, 50]).mtime)⟩ ∧
     etagString 0 0 ≠ etagString (FileStat.mk 7 [10, 20, 30, 40, 50]).bytes.length
       (FileStat.mk 7 [10, 20, 30, 40, 50]).mtime) :=
  ⟨⟨by decide, by decide⟩,
    claim7_conditional_304 fsDemo ["d"] "v.mp4" ⟨7, [10, 20, 30, 40, 50]⟩
      (some "bytes=0-1") none 0 0 (by decide) (by decide)⟩

/-- C9 counterexample: the identifier `../secret.mp4` resolves outside the
assets root, yet the handler stats it and serves its bytes with 200 — no
Forbidden rejection happens. -/
theorem claim9_counterexample :
    underRoot ["home", "assets"] (resolveVideoPath ["home"] "../secret.mp4") = false ∧
    (handleVideo fsSecret ["home"] ⟨"../secret.mp4", none, none⟩).status = 200 ∧
    (handleVideo fsSecret ["home"] ⟨"../secret.mp4", none, none⟩).status ≠ 403 ∧
    (handleVideo fsSecret ["home"] ⟨"../secret.mp4", none, none⟩).body = [9, 9, 9] := by
  refine ⟨by decide, by decide, by decide, by decide⟩

/-- C9 amended: resolution performs no root-escape check — `path.join`
normalises `..` segments and whatever file the resolved path names
(inside the root or not) is stat'ed and served in full with 200; the
handler never produces a 403 Forbidden. -/
theorem claim9_amended (fs : Fs) (dirname : List String) (name : String)
    (stat : FileStat)
    (hfs : fs (resolveVideoPath dirname name) = some stat) :
    (handleVideo fs dirname ⟨name, none, none⟩).status = 200 ∧
    (handleVideo fs dirname ⟨name, none, none⟩).body = stat.bytes ∧
    (handleVideo fs dirname ⟨name, none, none⟩).status ≠ 403 := by
  have hfull : handleVideo fs dirname ⟨name, none, none⟩ = fullBody stat := by
    simp only [handleVideo, hfs]
    rw [if_neg (by simp)]
  rw [hfull, fullBody]
  exact ⟨rfl, rfl, by simp⟩

/-- C9 witness for the amended statement: the escaping file of the
counterexample is served in full. -/
theorem claim9_witness :
    fsSecret (resolveVideoPath ["home"] "../secret.mp4") = some ⟨3, [9, 9, 9]⟩ ∧
    ((handleVideo fsSecret ["home"] ⟨"../secret.mp4", none, none⟩).status = 200 ∧
     (handleVideo fsSecret ["home"] ⟨"../secret.mp4", none, none⟩).body =
       (FileStat.mk 3 [9, 9, 9]).bytes ∧
     (handleVideo fsSecret ["home"] ⟨"../secret.mp4", none, none⟩).status ≠ 403) :=
  ⟨by decide,
    claim9_amended fsSecret ["home"] "../secret.mp4" ⟨3, [9, 9, 9]⟩ (by decide)⟩

/-- C10: every response for an existing resource — 200, 206, 304, 416 or
500 alike — carries the `Cache-Control` and `ETag` headers attached right
after the stat, and the 404 response (resource missing) carries neither;
the status is 404 exactly on the missing-resource path. -/
theorem claim10_cache_headers (fs : Fs) (dirname : List String) (req : Req) :
    lookupHeader "Cache-Control" (handleVideo fs dirname req).headers =
      (fs (resolveVideoPath dirname req.filename)).map (fun _ => "public, max-age=31536000") ∧
    lookupHeader "ETag" (handleVideo fs dirname req).headers =
      (fs (resolveVideoPath dirname req.filename)).map
        (fun stat => etagString stat.bytes.length stat.mtime) ∧
    (handleVideo fs dirname req).status =
      (fs (resolveVideoPath dirname req.filename)).elim 404
        (fun _ => (handleVideo fs dirname req).status) := by
  cases hfs : fs (resolveVideoPath dirname req.filename) with
  | none =>
    simp only [handleVideo, hfs, Option.map_none']
    exact ⟨rfl, rfl, rfl⟩
  | some stat =>
    have hform : ∃ rest, (handleVideo fs dirname req).headers = cacheHeaders stat ++ rest := by
      simp only [handleVideo, hfs]
      split
      · exact ⟨[], by rw [List.append_nil]⟩
      · split
        · split
          · rw [fullBody]
            exact ⟨_, rfl⟩
          · simp only [rangeBranch]
            split
            · exact ⟨_, rfl⟩
            · split
              · exact ⟨_, rfl⟩
              · exact ⟨_, rfl⟩
        · rw [fullBody]
          exact ⟨_, rfl⟩
    obtain ⟨rest, hrest⟩ := hform
    rw [hrest]
    refine ⟨?_, ?_, rfl⟩
    · rw [cacheHeaders, List.cons_append, lookupHeader_cons_eq]
      rfl
    · rw [cacheHeaders, List.cons_append, List.cons_append,
        lookupHeader_cons_ne _ _ _ _ (by decide), lookupHeader_cons_eq]
      rfl

/-- C8: the limiter keeps `activeCount <= maxConcurrent` after every event;
`maxConcurrent + 1` back-to-back requests yield exactly `maxConcurrent`
admitted (200) responses and exactly one 503, with the live set full; after
releasing any one admitted stream the count drops to `maxConcurrent - 1`,
releasing the same stream again is a no-op (the budget is released exactly
once), and a subsequent request is admitted. -/
theorem claim8_concurrency (maxC : Nat) (hmax : 1 ≤ maxC) (evs : List Ev) :
    (govRun maxC evs).state.active.length ≤ maxC ∧
    ((govRun maxC (List.replicate (maxC + 1) Ev.request)).statuses.count 200 = maxC ∧
     (govRun maxC (List.replicate (maxC + 1) Ev.request)).statuses.count 503 = 1 ∧
     (govRun maxC (List.replicate (maxC + 1) Ev.request)).state.active.length = maxC ∧
     (releaseSlot (govRun maxC (List.replicate (maxC + 1) Ev.request)).state
         ((govRun maxC (List.replicate (maxC + 1) Ev.request)).state.active.headD 0)).active.length =
       maxC - 1 ∧
     releaseSlot
         (releaseSlot (govRun maxC (List.replicate (maxC + 1) Ev.request)).state
           ((govRun maxC (List.replicate (maxC + 1) Ev.request)).state.active.headD 0))
         ((govRun maxC (List.replicate (maxC + 1) Ev.request)).state.active.headD 0) =
       releaseSlot (govRun maxC (List.replicate (maxC + 1) Ev.request)).state
         ((govRun maxC (List.replicate (maxC + 1) Ev.request)).state.active.headD 0) ∧
     (acquireSlot maxC
         (releaseSlot (govRun maxC (List.replicate (maxC + 1) Ev.request)).state
           ((govRun maxC (List.replicate (maxC + 1) Ev.request)).state.active.headD 0))).2 = 200) := by
  have hrun := govRun_replicate maxC (maxC + 1)
  rw [show min (maxC + 1) maxC = maxC from by omega,
    show maxC + 1 - maxC = 1 from by omega] at hrun
  have hne : (List.range maxC).reverse ≠ [] := by
    intro hc
    have hlen := congrArg List.length hc
    simp at hlen
    omega
  have hmem : (List.range maxC).reverse.headD 0 ∈ (List.range maxC).reverse := by
    cases hl : (List.range maxC).reverse with
    | nil => exact absurd hl hne
    | cons a t => simp
  have hnodup : (List.range maxC).reverse.Nodup := by
    rw [List.nodup_reverse]
    exact List.nodup_range maxC
  have hnot : (List.range maxC).reverse.headD 0 ∉
      (List.range maxC).reverse.erase ((List.range maxC).reverse.headD 0) := by
    intro hc
    exact ((List.Nodup.mem_erase_iff hnodup).mp hc).1 rfl
  constructor
  · exact (govRun_aux maxC evs ⟨govInit, []⟩ (by simp [govInit]) goodGov_init).1
  · rw [hrun]
    refine ⟨?_, ?_, ?_, ?_, ?_, ?_⟩
    · show (List.replicate maxC 200 ++ List.replicate 1 503).count 200 = maxC
      simp [List.count_append, List.count_replicate]
    · show (List.replicate maxC 200 ++ List.replicate 1 503).count 503 = 1
      simp [List.count_append, List.count_replicate]
    · show (List.range maxC).reverse.length = maxC
      simp
    · show ((List.range maxC).reverse.erase ((List.range maxC).reverse.headD 0)).length = maxC - 1
      rw [List.length_erase_of_mem hmem]
      simp
    · show releaseSlot
          (releaseSlot ⟨(List.range maxC).reverse, maxC⟩ ((List.range maxC).reverse.headD 0))
          ((List.range maxC).reverse.headD 0) =
        releaseSlot ⟨(List.range maxC).reverse, maxC⟩ ((List.range maxC).reverse.headD 0)
      simp only [releaseSlot]
      rw [List.erase_of_not_mem hnot]
    · show (acquireSlot maxC
          (releaseSlot ⟨(List.range maxC).reverse, maxC⟩ ((List.range maxC).reverse.headD 0))).2 = 200
      simp only [releaseSlot, acquireSlot]
      rw [if_neg (by
        simp only [List.length_erase_of_mem hmem, List.length_reverse, List.length_range]
        omega)]

/-- C8 witness: ceiling 2, a single request as the arbitrary event trace. -/
theorem claim8_witness :
    1 ≤ 2 ∧
    ((govRun 2 [Ev.request]).state.active.length ≤ 2 ∧
     ((govRun 2 (List.replicate (2 + 1) Ev.request)).statuses.count 200 = 2 ∧
      (govRun 2 (List.replicate (2 + 1) Ev.request)).statuses.count 503 = 1 ∧
      (govRun 2 (List.replicate (2 + 1) Ev.request)).state.active.length = 2 ∧
      (releaseSlot (govRun 2 (List.replicate (2 + 1) Ev.request)).state
          ((govRun 2 (List.replicate (2 + 1) Ev.request)).state.active.headD 0)).active.length =
        2 - 1 ∧
      releaseSlot
          (releaseSlot (govRun 2 (List.replicate (2 + 1) Ev.request)).state
            ((govRun 2 (List.replicate (2 + 1) Ev.request)).state.active.headD 0))
          ((govRun 2 (List.replicate (2 + 1) Ev.request)).state.active.headD 0) =
        releaseSlot (govRun 2 (List.replicate (2 + 1) Ev.request)).state
          ((govRun 2 (List.replicate (2 + 1) Ev.request)).state.active.headD 0) ∧
      (acquireSlot 2
          (releaseSlot (govRun 2 (List.replicate (2 + 1) Ev.request)).state
            ((govRun 2 (List.replicate (2 + 1) Ev.request)).state.active.headD 0))).2 = 200)) :=
  ⟨by decide, claim8_concurrency 2 (by decide) [Ev.request]⟩
